import Mathlib

/-!
# Verification of the spotspot terminal music player

Shallow embedding of `src/spotspot/cli.py`. Python floats are modelled as
rationals (`ℚ`); wall-clock reads (`time.time()`) are passed explicitly as a
`now` argument; calls into the pygame mixer and terminal output produced via
`click.echo`/`click.secho` are recorded as an explicit effect trace. ANSI
styling applied by `click.style`/`click.secho` is cosmetic and omitted from
the recorded text; each `click` call is recorded as one effect.
-/

namespace Spotspot

/-- Python `int(x)` applied to a real number: truncation toward zero.
On the reduced fraction `num/den` this is the T-division of the numerator
by the (positive) denominator. -/
def pyInt (q : ℚ) : ℤ := q.num.tdiv q.den

/-- Python's builtin `min` on two numbers. -/
def pymin (a b : ℚ) : ℚ := if a ≤ b then a else b

/-- Python's builtin `max` on two numbers. -/
def pymax (a b : ℚ) : ℚ := if a ≤ b then b else a

/-- Python `"%02d"` formatting of a natural number. -/
def pad2 (n : ℕ) : String := if n < 10 then "0" ++ toString n else toString n

/-- Left-pad with spaces to width `w` (Python `f"{n:3d}"`). -/
def pad_left (s : String) (w : ℕ) : String :=
  String.mk (List.replicate (w - s.length) ' ') ++ s

/-- `str(datetime.timedelta(seconds=n))` for an integer number of seconds.
Python normalises a timedelta to whole `days` (floored) plus a seconds part
in `[0, 86400)`; `Int.ediv`/`Int.emod` implement exactly that floored
`divmod` because the modulus 86400 is positive. The string is
`H:MM:SS`, prefixed by a day count only when it is nonzero. -/
def timedelta_str (n : ℤ) : String :=
  let days := Int.ediv n 86400
  let secs := (Int.emod n 86400).toNat
  let hh := secs / 3600
  let mm := secs % 3600 / 60
  let ss := secs % 60
  let base := toString hh ++ ":" ++ pad2 mm ++ ":" ++ pad2 ss
  if days = 0 then base
  else toString days ++ (if days = 1 ∨ days = -1 then " day, " else " days, ") ++ base

/-- Python `s.split(".")[0]`: the prefix of `s` before the first dot. -/
def strip_frac (s : String) : String :=
  String.mk (s.data.takeWhile (fun c => c != '.'))

/-- `str(timedelta(seconds=int(...))).split(".")[0]`, cli.py lines 75-76. -/
def format_time (n : ℤ) : String := strip_frac (timedelta_str n)

/-- `os.path.basename` for POSIX paths: the part after the last `/`. -/
def basename (s : String) : String :=
  String.mk (s.data.foldl (fun acc c => if c = '/' then [] else acc ++ [c]) [])

/-- The progress-bar string built at cli.py lines 92-97:
`"━" * filled`, then, if any cells remain, one `╺` followed by
`"━" * (width - filled - 1)`. -/
def make_bar (progress : ℚ) : List Char :=
  let width : ℤ := 30
  let filled := pyInt (width * progress)
  let bar := List.replicate filled.toNat '━'
  if filled < width then
    bar ++ '╺' :: List.replicate ((width - filled - 1).toNat) '━'
  else bar

/-- One observable side effect of the player: a pygame mixer call or a
terminal write (with its channel). -/
inductive Eff where
  | mixerInit : Eff
  | mixerLoad (path : String) : Eff
  | mixerPlay : Eff
  | mixerPause : Eff
  | mixerUnpause : Eff
  | mixerStop : Eff
  | setVolume (v : ℚ) : Eff
  | echoOut (s : String) : Eff
  | echoErr (s : String) : Eff
  deriving DecidableEq

/-- The fields of the Python `MusicPlayer` object (cli.py lines 14-27). -/
structure MusicPlayer where
  current_track : Option String
  playing : Bool
  current_volume : ℚ
  paused : Bool
  duration : ℚ
  start_time : ℚ
  pause_start : ℚ
  total_pause_time : ℚ
  pause_position : ℚ
  first_display : Bool
  deriving DecidableEq

/-- `MusicPlayer.__init__` (cli.py lines 15-27): the initial field values and
the backend calls (`pygame.mixer.init()`, `set_volume(0.5)`) it makes. -/
def MusicPlayer.init : MusicPlayer × List Eff :=
  ({ current_track := none, playing := false, current_volume := 1/2,
     paused := false, duration := 0, start_time := 0, pause_start := 0,
     total_pause_time := 0, pause_position := 0, first_display := true },
   [Eff.mixerInit, Eff.setVolume (1/2)])

/-- `MusicPlayer.get_current_position` (cli.py lines 48-53). -/
def MusicPlayer.get_current_position (p : MusicPlayer) (now : ℚ) : ℚ :=
  if p.playing = false then 0
  else if p.paused = true then p.pause_position
  else now - p.start_time - p.total_pause_time

/-- `MusicPlayer.display_progress_bar` (cli.py lines 66-107). Returns the
updated player (the `first_display` flag may flip) and the emitted output.
A no-op when `duration <= 0`. -/
def MusicPlayer.display_progress_bar (p : MusicPlayer) (position : ℚ) :
    MusicPlayer × List Eff :=
  if p.duration ≤ 0 then (p, [])
  else
    let progress := pymin (position / p.duration) 1
    let percentage := pyInt (progress * 100)
    let current_time := format_time (pyInt position)
    let total_time := format_time (pyInt p.duration)
    let cleared : MusicPlayer × List Eff :=
      if p.first_display = false then (p, [Eff.echoOut "\x1b[3F\x1b[J"])
      else ({ p with first_display := false }, [Eff.echoOut ""])
    let p1 := cleared.1
    let bar := make_bar progress
    let progress_text :=
      pad_left (toString percentage) 3 ++ "% |" ++ String.mk bar ++ "| " ++
      current_time ++ "/" ++ total_time ++ " 🔊 " ++
      toString (pyInt (p1.current_volume * 100)) ++ "% " ++
      (if p1.paused = true then "⏸️ " else "▶️ ")
    (p1, cleared.2 ++ [Eff.echoOut (basename (p1.current_track.getD "")),
                       Eff.echoOut progress_text, Eff.echoOut ""])

/-- `MusicPlayer.play_file` (cli.py lines 29-46). `md` is the result of the
mutagen metadata lookup (`none` models `File(...)` returning `None`, so
`duration` falls back to `0`); `loadResult` is `some e` when
`pygame.mixer.music.load`/`play` raises `pygame.error e`, which the method
catches and reports on stderr. Note the duration is assigned before the
load, so it is updated even on a load failure. -/
def MusicPlayer.play_file (p : MusicPlayer) (path : String) (md : Option ℚ)
    (loadResult : Option String) (now : ℚ) : MusicPlayer × List Eff :=
  let p1 : MusicPlayer := { p with duration := md.getD 0 }
  match loadResult with
  | some e => (p1, [Eff.echoErr ("\rError playing file: " ++ e)])
  | none =>
    let p2 : MusicPlayer :=
      { p1 with current_track := some path, playing := true, paused := false,
                start_time := now, total_pause_time := 0, pause_position := 0,
                first_display := true }
    let disp := p2.display_progress_bar 0
    (disp.1, [Eff.mixerLoad path, Eff.mixerPlay] ++ disp.2)

/-- `MusicPlayer.pause` (cli.py lines 109-120). Faithful to the source's
statement order: in the pause branch `self.paused = True` is executed
*before* `self.pause_position = self.get_current_position()`. -/
def MusicPlayer.pause (p : MusicPlayer) (now : ℚ) : MusicPlayer × List Eff :=
  if p.playing = true ∧ p.paused = false then
    let p1 := { p with paused := true, pause_start := now }
    let p2 := { p1 with pause_position := p1.get_current_position now }
    let disp := p2.display_progress_bar p2.pause_position
    (disp.1, Eff.mixerPause :: disp.2)
  else if p.playing = true ∧ p.paused = true then
    let p1 := { p with paused := false }
    let p2 := { p1 with total_pause_time :=
                  p1.total_pause_time + (now - p1.pause_start) }
    let disp := p2.display_progress_bar (p2.get_current_position now)
    (disp.1, Eff.mixerUnpause :: disp.2)
  else (p, [])

/-- `MusicPlayer.stop` (cli.py lines 122-126). -/
def MusicPlayer.stop (p : MusicPlayer) : MusicPlayer × List Eff :=
  if p.playing = true then
    ({ p with playing := false, paused := false }, [Eff.mixerStop])
  else (p, [])

/-- The volume update performed by `MusicPlayer.adjust_volume`
(cli.py lines 128-132). -/
def volume_step (v : ℚ) (up : Bool) : ℚ :=
  if up = true ∧ v < 1 then pymin 1 (v + 1/10)
  else if up = false ∧ 0 < v then pymax 0 (v - 1/10)
  else v

/-- `MusicPlayer.adjust_volume` (cli.py lines 128-134). -/
def MusicPlayer.adjust_volume (p : MusicPlayer) (up : Bool) (now : ℚ) :
    MusicPlayer × List Eff :=
  let p1 := { p with current_volume := volume_step p.current_volume up }
  let disp := p1.display_progress_bar (p1.get_current_position now)
  (disp.1, Eff.setVolume p1.current_volume :: disp.2)

/-- Folding a finite sequence of `adjust_volume` calls (`true` = volume up,
`false` = volume down) over a player. -/
def apply_volume_keys (now : ℚ) (p : MusicPlayer) (dirs : List Bool) :
    MusicPlayer :=
  dirs.foldl (fun q d => (q.adjust_volume d now).1) p

/-- A playlist-navigation signal returned by `handle_keyboard_input`. -/
inductive NavAction where
  | next : NavAction
  | prev : NavAction
  deriving DecidableEq

/-- Outcome of `handle_keyboard_input` on a finite keystroke script:
a navigation signal (with the player, the unread keys and the trace),
process exit via `q`, or exhaustion of the script (the Python function
would block forever waiting for another keystroke). -/
inductive KeyOutcome where
  | nav (a : NavAction) (p : MusicPlayer) (rest : List Char) (tr : List Eff)
  | quitted (p : MusicPlayer) (tr : List Eff)
  | blocked (p : MusicPlayer) (tr : List Eff)
  deriving DecidableEq

/-- Prefix an effect trace onto a `KeyOutcome`. -/
def KeyOutcome.prependTrace (tr : List Eff) : KeyOutcome → KeyOutcome
  | .nav a p rest tr2 => .nav a p rest (tr ++ tr2)
  | .quitted p tr2 => .quitted p (tr ++ tr2)
  | .blocked p tr2 => .blocked p (tr ++ tr2)

/-- `handle_keyboard_input` (cli.py lines 163-181) in directory mode
(`music_files`/`current_index` supplied, so `n`/`p` return signals).
The keystroke script replaces the blocking `get_char()` reads. -/
def handle_keyboard_input (now : ℚ) : MusicPlayer → List Char → KeyOutcome
  | p, [] => .blocked p []
  | p, c :: rest =>
    if c = ' ' then
      let step := p.pause now
      (handle_keyboard_input now step.1 rest).prependTrace step.2
    else if c = '+' then
      let step := p.adjust_volume true now
      (handle_keyboard_input now step.1 rest).prependTrace step.2
    else if c = '-' then
      let step := p.adjust_volume false now
      (handle_keyboard_input now step.1 rest).prependTrace step.2
    else if c = 'q' then
      let step := p.stop
      .quitted step.1 (step.2 ++ [Eff.echoOut "\nQuitting..."])
    else if c = 'n' then .nav .next p rest []
    else if c = 'p' then .nav .prev p rest []
    else handle_keyboard_input now p rest

/-- One playlist entry together with the collaborator outcomes for it:
`md` is the mutagen duration lookup result and `loadResult` is `some e`
when pygame raises error `e` on load/play. -/
structure Track where
  path : String
  md : Option ℚ
  loadResult : Option String
  deriving DecidableEq

/-- Result of the directory-mode playlist loop of `main`
(cli.py lines 237-255). `finished` is the loop condition
`0 <= current_index < len(music_files)` failing (normal termination),
`quitted` is `sys.exit(0)` via `q`, `blocked` means the keystroke script
ran out (the process would sit waiting for input), and `outOfFuel` is the
model's recursion bound running out. -/
inductive RunResult where
  | finished (p : MusicPlayer) (tr : List Eff)
  | quitted (p : MusicPlayer) (tr : List Eff)
  | blocked (p : MusicPlayer) (tr : List Eff)
  | outOfFuel (p : MusicPlayer) (tr : List Eff)
  deriving DecidableEq

/-- Prefix an effect trace onto a `RunResult`. -/
def RunResult.prependTrace (tr : List Eff) : RunResult → RunResult
  | .finished p tr2 => .finished p (tr ++ tr2)
  | .quitted p tr2 => .quitted p (tr ++ tr2)
  | .blocked p tr2 => .blocked p (tr ++ tr2)
  | .outOfFuel p tr2 => .outOfFuel p (tr ++ tr2)

/-- The effect trace of a `RunResult`. -/
def RunResult.trace : RunResult → List Eff
  | .finished _ tr => tr
  | .quitted _ tr => tr
  | .blocked _ tr => tr
  | .outOfFuel _ tr => tr

/-- Whether the playlist loop terminated normally (loop condition failed). -/
def RunResult.isFinished : RunResult → Bool
  | .finished _ _ => true
  | _ => false

/-- Whether the playlist loop is blocked waiting for further keystrokes. -/
def RunResult.isBlocked : RunResult → Bool
  | .blocked _ _ => true
  | _ => false

/-- The directory-mode playlist loop of `main` (cli.py lines 237-255):
while `0 <= current_index < len(music_files)`, play the current track,
block on keyboard input, bump the index on `next`/`prev`, stop the player,
repeat. `fuel` bounds the number of loop iterations in the model. -/
def directory_loop (now : ℚ) (tracks : List Track) :
    ℕ → MusicPlayer → ℤ → List Char → RunResult
  | 0, p, _, _ => .outOfFuel p []
  | fuel + 1, p, idx, input =>
    if h : 0 ≤ idx ∧ idx < tracks.length then
      let t := tracks.get ⟨idx.toNat, by omega⟩
      let played := p.play_file t.path t.md t.loadResult now
      match handle_keyboard_input now played.1 input with
      | .blocked p2 tr2 => .blocked p2 (played.2 ++ tr2)
      | .quitted p2 tr2 => .quitted p2 (played.2 ++ tr2)
      | .nav a p2 rest tr2 =>
        let idx' : ℤ := match a with | .next => idx + 1 | .prev => idx - 1
        let stopped := p2.stop
        (directory_loop now tracks fuel stopped.1 idx' rest).prependTrace
          (played.2 ++ tr2 ++ stopped.2)
    else .finished p []

/-- Modelled from the spec: `clamp(x, 0, 1)` as written in the bar-rendering
formula `filled = floor(width × clamp(position/duration, 0, 1))`. -/
def clamp01 (q : ℚ) : ℚ := min (max q 0) 1

/-- Modelled from the spec's bar description: `filled` solid glyphs, then,
if any cells remain, one distinct head glyph followed by empty glyphs for
the rest of the 30 cells (glyphs instantiated from the source; the source
uses the same character for the solid and the trailing cells). -/
def spec_bar (filled : ℕ) : List Char :=
  List.replicate filled '━' ++
    (if filled < 30 then '╺' :: List.replicate (30 - filled - 1) '━' else [])

/-- The implicit state invariant of the player: `paused` implies `playing`. -/
def MusicPlayer.Inv (p : MusicPlayer) : Prop :=
  p.paused = true → p.playing = true

/-! ## Helper lemmas -/

theorem pymin_eq_min (a b : ℚ) : pymin a b = min a b := by
  rw [pymin, min_def]

theorem pymax_eq_max (a b : ℚ) : pymax a b = max a b := by
  rw [pymax, max_def]

theorem pyInt_eq_floor {q : ℚ} (h : 0 ≤ q) : pyInt q = ⌊q⌋ := by
  have hnum : 0 ≤ q.num := Rat.num_nonneg.mpr h
  obtain ⟨m, hm⟩ := Int.eq_ofNat_of_zero_le hnum
  rw [Rat.floor_def, pyInt, hm]
  exact (Int.ofNat_tdiv m q.den).symm.trans (Int.ofNat_ediv m q.den)

theorem display_fst_cases (p : MusicPlayer) (pos : ℚ) :
    (p.display_progress_bar pos).1 = p
      ∨ (p.display_progress_bar pos).1 = { p with first_display := false } := by
  rw [MusicPlayer.display_progress_bar]
  split
  · exact Or.inl rfl
  · dsimp only
    split
    · exact Or.inl rfl
    · exact Or.inr rfl

@[simp] theorem display_playing (p : MusicPlayer) (pos : ℚ) :
    (p.display_progress_bar pos).1.playing = p.playing := by
  rcases display_fst_cases p pos with h | h <;> simp [h]

@[simp] theorem display_paused (p : MusicPlayer) (pos : ℚ) :
    (p.display_progress_bar pos).1.paused = p.paused := by
  rcases display_fst_cases p pos with h | h <;> simp [h]

@[simp] theorem display_volume (p : MusicPlayer) (pos : ℚ) :
    (p.display_progress_bar pos).1.current_volume = p.current_volume := by
  rcases display_fst_cases p pos with h | h <;> simp [h]

@[simp] theorem display_duration (p : MusicPlayer) (pos : ℚ) :
    (p.display_progress_bar pos).1.duration = p.duration := by
  rcases display_fst_cases p pos with h | h <;> simp [h]

@[simp] theorem display_current_track (p : MusicPlayer) (pos : ℚ) :
    (p.display_progress_bar pos).1.current_track = p.current_track := by
  rcases display_fst_cases p pos with h | h <;> simp [h]

@[simp] theorem display_start_time (p : MusicPlayer) (pos : ℚ) :
    (p.display_progress_bar pos).1.start_time = p.start_time := by
  rcases display_fst_cases p pos with h | h <;> simp [h]

@[simp] theorem display_pause_start (p : MusicPlayer) (pos : ℚ) :
    (p.display_progress_bar pos).1.pause_start = p.pause_start := by
  rcases display_fst_cases p pos with h | h <;> simp [h]

@[simp] theorem display_total_pause_time (p : MusicPlayer) (pos : ℚ) :
    (p.display_progress_bar pos).1.total_pause_time = p.total_pause_time := by
  rcases display_fst_cases p pos with h | h <;> simp [h]

@[simp] theorem display_pause_position (p : MusicPlayer) (pos : ℚ) :
    (p.display_progress_bar pos).1.pause_position = p.pause_position := by
  rcases display_fst_cases p pos with h | h <;> simp [h]

@[simp] theorem adjust_volume_fst_volume (p : MusicPlayer) (up : Bool) (now : ℚ) :
    (p.adjust_volume up now).1.current_volume = volume_step p.current_volume up := by
  simp [MusicPlayer.adjust_volume]

@[simp] theorem adjust_volume_fst_playing (p : MusicPlayer) (up : Bool) (now : ℚ) :
    (p.adjust_volume up now).1.playing = p.playing := by
  simp [MusicPlayer.adjust_volume]

@[simp] theorem adjust_volume_fst_paused (p : MusicPlayer) (up : Bool) (now : ℚ) :
    (p.adjust_volume up now).1.paused = p.paused := by
  simp [MusicPlayer.adjust_volume]

@[simp] theorem trace_prependTrace (r : RunResult) (tr : List Eff) :
    (r.prependTrace tr).trace = tr ++ r.trace := by
  cases r <;> rfl

@[simp] theorem isFinished_prependTrace (r : RunResult) (tr : List Eff) :
    (r.prependTrace tr).isFinished = r.isFinished := by
  cases r <;> rfl

theorem handle_n (now : ℚ) (p : MusicPlayer) (rest : List Char) :
    handle_keyboard_input now p ('n' :: rest) = .nav .next p rest [] := rfl

theorem handle_p (now : ℚ) (p : MusicPlayer) (rest : List Char) :
    handle_keyboard_input now p ('p' :: rest) = .nav .prev p rest [] := rfl

theorem pymin_one_of_le {x : ℚ} (h : x ≤ 1) : pymin 1 x = x := by
  rw [pymin]
  split_ifs with h1
  · exact le_antisymm h1 h
  · rfl

theorem pymax_zero_of_nonneg {x : ℚ} (h : 0 ≤ x) : pymax 0 x = x := by
  rw [pymax, if_pos h]

theorem volume_step_mem {v : ℚ} (up : Bool) (h0 : 0 ≤ v) (h1 : v ≤ 1) :
    0 ≤ volume_step v up ∧ volume_step v up ≤ 1 := by
  rw [volume_step]
  split_ifs with ha hb
  · rw [pymin]
    split_ifs with hc
    · norm_num
    · constructor <;> linarith
  · rw [pymax]
    split_ifs with hc
    · constructor <;> linarith
    · norm_num
  · exact ⟨h0, h1⟩

theorem foldl_volume_step_mem :
    ∀ (dirs : List Bool) (v : ℚ), 0 ≤ v → v ≤ 1 →
      0 ≤ dirs.foldl volume_step v ∧ dirs.foldl volume_step v ≤ 1
  | [], _, h0, h1 => ⟨h0, h1⟩
  | d :: ds, v, h0, h1 => by
    have h := volume_step_mem d h0 h1
    simpa [List.foldl] using foldl_volume_step_mem ds (volume_step v d) h.1 h.2

theorem apply_volume_keys_volume (now : ℚ) (dirs : List Bool) :
    ∀ p : MusicPlayer,
      (apply_volume_keys now p dirs).current_volume
        = dirs.foldl volume_step p.current_volume := by
  induction dirs with
  | nil => intro p; rfl
  | cons d ds ih =>
    intro p
    show (apply_volume_keys now ((p.adjust_volume d now).1) ds).current_volume = _
    rw [ih]
    simp [List.foldl]

theorem strip_frac_eq_self {s : String} (h : ∀ c ∈ s.data, c ≠ '.') :
    strip_frac s = s := by
  rw [strip_frac]
  have hself : s.data.takeWhile (fun c => c != '.') = s.data :=
    List.takeWhile_eq_self_iff.mpr (fun c hc => by simpa using h c hc)
  rw [hself]

theorem no_dot_toString_hours :
    ∀ n : ℕ, n < 24 → ∀ c ∈ (toString n).data, c ≠ '.' := by decide

theorem no_dot_pad2 :
    ∀ n : ℕ, n < 60 → ∀ c ∈ (pad2 n).data, c ≠ '.' := by decide

theorem format_time_of_lt_day {n : ℕ} (h : n < 86400) :
    format_time (n : ℤ)
      = toString (n / 3600) ++ ":" ++ pad2 (n % 3600 / 60) ++ ":" ++ pad2 (n % 60) := by
  have hdays : Int.ediv (n : ℤ) 86400 = 0 := by
    show (n : ℤ) / 86400 = 0
    omega
  have hsecs : (Int.emod (n : ℤ) 86400).toNat = n := by
    show ((n : ℤ) % 86400).toNat = n
    omega
  rw [format_time]
  simp only [timedelta_str, hdays, hsecs, if_pos]
  apply strip_frac_eq_self
  intro c hc
  simp only [String.data_append, List.mem_append] at hc
  rcases hc with ((((h1 | h2) | h3) | h4) | h5)
  · exact no_dot_toString_hours (n / 3600) (by omega) c h1
  · simp only [show (":").data = [':'] from rfl, List.mem_singleton] at h2
    subst h2; decide
  · exact no_dot_pad2 (n % 3600 / 60) (by omega) c h3
  · simp only [show (":").data = [':'] from rfl, List.mem_singleton] at h4
    subst h4; decide
  · exact no_dot_pad2 (n % 60) (by omega) c h5

@[simp] theorem trace_finished (p : MusicPlayer) (tr : List Eff) :
    (RunResult.finished p tr).trace = tr := rfl

@[simp] theorem trace_quitted (p : MusicPlayer) (tr : List Eff) :
    (RunResult.quitted p tr).trace = tr := rfl

@[simp] theorem trace_blocked (p : MusicPlayer) (tr : List Eff) :
    (RunResult.blocked p tr).trace = tr := rfl

theorem directory_loop_out (now : ℚ) (tracks : List Track) (fuel : ℕ)
    (p : MusicPlayer) (idx : ℤ) (input : List Char)
    (h : ¬(0 ≤ idx ∧ idx < tracks.length)) :
    directory_loop now tracks (fuel + 1) p idx input = .finished p [] := by
  simp only [directory_loop]
  rw [dif_neg h]

theorem directory_loop_cons (now : ℚ) (tracks : List Track) (fuel : ℕ)
    (p : MusicPlayer) (idx : ℤ) (input : List Char)
    (h0 : 0 ≤ idx) (hlt : idx < tracks.length) (hn : idx.toNat < tracks.length) :
    directory_loop now tracks (fuel + 1) p idx input =
      (let t := tracks.get ⟨idx.toNat, hn⟩
       let played := p.play_file t.path t.md t.loadResult now
       match handle_keyboard_input now played.1 input with
       | .blocked p2 tr2 => .blocked p2 (played.2 ++ tr2)
       | .quitted p2 tr2 => .quitted p2 (played.2 ++ tr2)
       | .nav a p2 rest tr2 =>
         let idx' : ℤ := match a with | .next => idx + 1 | .prev => idx - 1
         let stopped := p2.stop
         (directory_loop now tracks fuel stopped.1 idx' rest).prependTrace
           (played.2 ++ tr2 ++ stopped.2)) := by
  simp only [directory_loop]
  rw [dif_pos ⟨h0, hlt⟩]

theorem directory_loop_trace_prefix (now : ℚ) (tracks : List Track) (fuel : ℕ)
    (p : MusicPlayer) (idx : ℤ) (input : List Char)
    (h0 : 0 ≤ idx) (hlt : idx < tracks.length) (hn : idx.toNat < tracks.length) :
    ∃ tl, (directory_loop now tracks (fuel + 1) p idx input).trace
      = (p.play_file (tracks.get ⟨idx.toNat, hn⟩).path
          (tracks.get ⟨idx.toNat, hn⟩).md
          (tracks.get ⟨idx.toNat, hn⟩).loadResult now).2 ++ tl := by
  rw [directory_loop_cons now tracks fuel p idx input h0 hlt hn]
  dsimp only
  rcases handle_keyboard_input now
      ((p.play_file (tracks.get ⟨idx.toNat, hn⟩).path
        (tracks.get ⟨idx.toNat, hn⟩).md
        (tracks.get ⟨idx.toNat, hn⟩).loadResult now).1) input with
    ⟨a, p2, rest, tr2⟩ | ⟨p2, tr2⟩ | ⟨p2, tr2⟩
  · refine ⟨tr2 ++ ((p2.stop).2)
      ++ (directory_loop now tracks fuel (p2.stop).1
            (match a with | .next => idx + 1 | .prev => idx - 1) rest).trace, ?_⟩
    rw [trace_prependTrace]
    simp [List.append_assoc]
  · exact ⟨tr2, rfl⟩
  · exact ⟨tr2, rfl⟩

/-! ## Claim theorems -/

/-- C10: a newly constructed player starts with volume exactly 0.5 (also
pushed to the audio backend via `set_volume`), not playing, not paused,
duration 0, and no current track. -/
theorem C10_initial_state :
    MusicPlayer.init.1.current_volume = 1/2
    ∧ MusicPlayer.init.1.playing = false
    ∧ MusicPlayer.init.1.paused = false
    ∧ MusicPlayer.init.1.duration = 0
    ∧ MusicPlayer.init.1.current_track = none
    ∧ Eff.setVolume (1/2) ∈ MusicPlayer.init.2 :=
  ⟨rfl, rfl, rfl, rfl, rfl, by simp [MusicPlayer.init]⟩

/-- C7: when the metadata reader cannot determine the duration (mutagen's
`File` returns `None`), loading sets the duration to 0 and still attempts
playback (the mixer `load` and `play` calls are issued), and every
progress-bar render call with `duration <= 0` is a no-op returning
no output. -/
theorem C7_metadata_recovery :
    (∀ (p : MusicPlayer) (path : String) (now : ℚ),
        (p.play_file path none none now).1.duration = 0
        ∧ Eff.mixerLoad path ∈ (p.play_file path none none now).2
        ∧ Eff.mixerPlay ∈ (p.play_file path none none now).2)
    ∧ ∀ (p : MusicPlayer) (pos : ℚ), p.duration ≤ 0 →
        p.display_progress_bar pos = (p, []) := by
  constructor
  · intro p path now
    refine ⟨?_, ?_, ?_⟩ <;> simp [MusicPlayer.play_file]
  · intro p pos h
    rw [MusicPlayer.display_progress_bar, if_pos h]

/-- C7 witness: concrete instance of the duration-unknown path. -/
theorem C7_metadata_recovery_witness :
    ((MusicPlayer.init.1.play_file "a.mp3" none none 0).1.duration = 0
      ∧ Eff.mixerLoad "a.mp3" ∈ (MusicPlayer.init.1.play_file "a.mp3" none none 0).2
      ∧ Eff.mixerPlay ∈ (MusicPlayer.init.1.play_file "a.mp3" none none 0).2)
    ∧ MusicPlayer.init.1.duration ≤ 0
    ∧ MusicPlayer.init.1.display_progress_bar 5 = (MusicPlayer.init.1, []) :=
  ⟨C7_metadata_recovery.1 MusicPlayer.init.1 "a.mp3" 0,
   le_refl 0,
   C7_metadata_recovery.2 MusicPlayer.init.1 5 (le_refl 0)⟩

/-- C4, failing part (code bug): after `play_file` at time 0 with duration
100 and `pause` at time 10, the player is Paused, yet `get_current_position`
returns the stale `pause_position` 0 instead of the position 10 at which
Paused was entered: `pause` sets `self.paused = True` before reading
`self.get_current_position()`, so the "frozen" position is never captured.
The Playing and Idle cases of the claim do hold (`get_current_position`
returns `now - start_time - total_pause_time` while playing, 0 when not
playing). -/
theorem C4_pause_position_bug :
    ((MusicPlayer.init.1.play_file "a.mp3" (some 100) none 0).1.pause 10).1.paused = true
    ∧ ((MusicPlayer.init.1.play_file "a.mp3" (some 100) none 0).1.pause 10).1.playing = true
    ∧ (MusicPlayer.init.1.play_file "a.mp3" (some 100) none 0).1.get_current_position 10 = 10
    ∧ ((MusicPlayer.init.1.play_file "a.mp3" (some 100) none 0).1.pause 10).1.get_current_position 10 = 0
    ∧ (∀ (p : MusicPlayer) (now : ℚ), p.playing = false → p.get_current_position now = 0)
    ∧ ∀ (p : MusicPlayer) (now : ℚ), p.playing = true → p.paused = false →
        p.get_current_position now = now - p.start_time - p.total_pause_time := by
  refine ⟨?_, ?_, ?_, ?_, ?_, ?_⟩
  · norm_num [MusicPlayer.play_file, MusicPlayer.init, MusicPlayer.pause,
      MusicPlayer.get_current_position, MusicPlayer.display_progress_bar]
  · norm_num [MusicPlayer.play_file, MusicPlayer.init, MusicPlayer.pause,
      MusicPlayer.get_current_position, MusicPlayer.display_progress_bar]
  · norm_num [MusicPlayer.play_file, MusicPlayer.init,
      MusicPlayer.get_current_position, MusicPlayer.display_progress_bar]
  · norm_num [MusicPlayer.play_file, MusicPlayer.init, MusicPlayer.pause,
      MusicPlayer.get_current_position, MusicPlayer.display_progress_bar]
  · intro p now h
    simp [MusicPlayer.get_current_position, h]
  · intro p now h1 h2
    simp [MusicPlayer.get_current_position, h1, h2]

/-- C9: in every reachable state the `paused` flag implies the `playing`
flag; construction establishes it, every operation preserves it, and from
any state satisfying it `stop` leaves both flags cleared. -/
theorem C9_paused_implies_playing :
    MusicPlayer.init.1.Inv
    ∧ (∀ (p : MusicPlayer) (path : String) (md : Option ℚ)
        (lr : Option String) (now : ℚ),
        p.Inv → (p.play_file path md lr now).1.Inv)
    ∧ (∀ (p : MusicPlayer) (now : ℚ), p.Inv → (p.pause now).1.Inv)
    ∧ (∀ p : MusicPlayer, p.Inv → (p.stop).1.Inv)
    ∧ (∀ (p : MusicPlayer) (up : Bool) (now : ℚ),
        p.Inv → (p.adjust_volume up now).1.Inv)
    ∧ ∀ p : MusicPlayer, p.Inv →
        (p.stop).1.playing = false ∧ (p.stop).1.paused = false := by
  refine ⟨?_, ?_, ?_, ?_, ?_, ?_⟩
  · intro h
    simp [MusicPlayer.init] at h
  · intro p path md lr now h
    cases lr with
    | some e =>
      intro hx
      simp only [MusicPlayer.play_file] at hx ⊢
      exact h hx
    | none =>
      intro _hx
      simp [MusicPlayer.play_file]
  · intro p now h
    rw [MusicPlayer.pause]
    split_ifs with h1 h2
    · intro _hx
      simpa using h1.1
    · intro hx
      simp at hx
    · exact h
  · intro p h
    rw [MusicPlayer.stop]
    split_ifs with h1
    · intro hx
      simp at hx
    · exact h
  · intro p up now h
    intro hx
    simp only [adjust_volume_fst_paused] at hx
    simpa using h hx
  · intro p h
    rw [MusicPlayer.stop]
    split_ifs with h1
    · exact ⟨rfl, rfl⟩
    · refine ⟨by simpa using h1, ?_⟩
      cases hq : p.paused
      · rfl
      · exact absurd (h hq) h1

/-- C9 witness: the invariant holds at the initial player and `stop` from it
leaves both flags cleared. -/
theorem C9_paused_implies_playing_witness :
    (MusicPlayer.init.1.pause 0).1.Inv
    ∧ (MusicPlayer.init.1.stop).1.playing = false
    ∧ (MusicPlayer.init.1.stop).1.paused = false := by
  refine ⟨C9_paused_implies_playing.2.2.1 MusicPlayer.init.1 0 ?_, ?_, ?_⟩
  · intro hx
    simp [MusicPlayer.init] at hx
  · exact (C9_paused_implies_playing.2.2.2.2.2 MusicPlayer.init.1
      (fun hx => by simp [MusicPlayer.init] at hx)).1
  · exact (C9_paused_implies_playing.2.2.2.2.2 MusicPlayer.init.1
      (fun hx => by simp [MusicPlayer.init] at hx)).2

/-- C5: starting from any volume in `[0, 1]`, any finite sequence of
`adjust_volume` calls keeps the volume in `[0, 1]`; and from volume 0.5 ten
consecutive volume-up calls yield exactly 1.0. -/
theorem C5_volume_bounds (p : MusicPlayer) (dirs : List Bool) (now : ℚ)
    (h0 : 0 ≤ p.current_volume) (h1 : p.current_volume ≤ 1) :
    (0 ≤ (apply_volume_keys now p dirs).current_volume
      ∧ (apply_volume_keys now p dirs).current_volume ≤ 1)
    ∧ (p.current_volume = 1/2 →
        (apply_volume_keys now p (List.replicate 10 true)).current_volume = 1) := by
  constructor
  · rw [apply_volume_keys_volume]
    exact foldl_volume_step_mem dirs p.current_volume h0 h1
  · intro hv
    rw [apply_volume_keys_volume, hv]
    norm_num [List.replicate, List.foldl, volume_step, pymin]

/-- C5 witness: concrete instance at the initial player (volume 0.5). -/
theorem C5_volume_bounds_witness :
    (0 ≤ (apply_volume_keys 0 MusicPlayer.init.1 [true, false]).current_volume
      ∧ (apply_volume_keys 0 MusicPlayer.init.1 [true, false]).current_volume ≤ 1)
    ∧ (MusicPlayer.init.1.current_volume = 1/2 →
        (apply_volume_keys 0 MusicPlayer.init.1
          (List.replicate 10 true)).current_volume = 1) :=
  C5_volume_bounds MusicPlayer.init.1 [true, false] 0
    (by norm_num [MusicPlayer.init]) (by norm_num [MusicPlayer.init])

/-- C6: for any volume `v = k/10` with `0 < k < 10`, a volume-up call
followed by a volume-down call returns the volume to exactly `v`. -/
theorem C6_volume_round_trip (p : MusicPlayer) (now now2 : ℚ) (k : ℕ)
    (hk0 : 0 < k) (hk9 : k < 10) (hv : p.current_volume = (k : ℚ) / 10) :
    ((p.adjust_volume true now).1.adjust_volume false now2).1.current_volume
      = (k : ℚ) / 10 := by
  have hk1 : (k : ℚ) ≤ 9 := by
    have : k ≤ 9 := by omega
    exact_mod_cast this
  have hknn : (0 : ℚ) ≤ (k : ℚ) := Nat.cast_nonneg k
  rw [adjust_volume_fst_volume, adjust_volume_fst_volume, hv]
  have h1 : volume_step ((k : ℚ)/10) true = (k : ℚ)/10 + 1/10 := by
    rw [volume_step, if_pos ⟨rfl, by linarith⟩]
    exact pymin_one_of_le (by linarith)
  rw [h1, volume_step]
  rw [if_neg (by simp)]
  rw [if_pos ⟨rfl, by linarith⟩]
  rw [pymax_zero_of_nonneg (by linarith)]
  ring

/-- C6 witness: concrete instance at the initial player, `k = 5`. -/
theorem C6_volume_round_trip_witness :
    ((MusicPlayer.init.1.adjust_volume true 0).1.adjust_volume false 0).1.current_volume
      = (5 : ℚ) / 10 :=
  C6_volume_round_trip MusicPlayer.init.1 0 0 5 (by norm_num) (by norm_num)
    (by norm_num [MusicPlayer.init])

/-- C1: for every snapshot with positive duration (and a nonnegative
position, as produced by the position query), the bar drawn by the renderer
has exactly 30 cells and consists of `floor(30 * clamp(position/duration,
0, 1))` solid cells, then (if any cells remain) one head glyph distinct
from the solid glyph, then the trailing cells; the integer percentage is
`floor(100 * clamp(position/duration, 0, 1))`.  (`spec_bar` is the bar as
the spec describes it; the source uses the same character for the solid
and the trailing cells.) -/
theorem C1_bar_rendering (position duration : ℚ)
    (hpos : 0 ≤ position) (hdur : 0 < duration) :
    (make_bar (pymin (position / duration) 1)).length = 30
    ∧ make_bar (pymin (position / duration) 1)
        = spec_bar (⌊30 * clamp01 (position / duration)⌋.toNat)
    ∧ ('╺' : Char) ≠ '━'
    ∧ pyInt (pymin (position / duration) 1 * 100)
        = ⌊100 * clamp01 (position / duration)⌋ := by
  have hx0 : 0 ≤ position / duration := div_nonneg hpos (le_of_lt hdur)
  have hclamp : clamp01 (position / duration) = min (position / duration) 1 := by
    rw [clamp01, max_eq_left hx0]
  rw [pymin_eq_min, hclamp]
  set g := min (position / duration) 1 with hg
  have hg0 : 0 ≤ g := le_min hx0 zero_le_one
  have hg1 : g ≤ 1 := min_le_right _ 1
  have h30 : (0 : ℚ) ≤ ((30 : ℤ) : ℚ) * g := by positivity
  have hpyint : pyInt (((30 : ℤ) : ℚ) * g) = ⌊((30 : ℤ) : ℚ) * g⌋ :=
    pyInt_eq_floor h30
  have hcast : ((30 : ℤ) : ℚ) * g = 30 * g := by push_cast; ring
  have hfl : ⌊(30 : ℚ) * g⌋ ≤ 30 := by
    have hle : (30 : ℚ) * g ≤ 30 := by nlinarith
    have h2 : ((30 : ℤ) : ℚ) = 30 := by norm_num
    calc ⌊(30 : ℚ) * g⌋ ≤ ⌊((30 : ℤ) : ℚ)⌋ := Int.floor_le_floor (by rw [h2]; exact hle)
      _ = 30 := Int.floor_intCast 30
  have hfl0 : 0 ≤ ⌊(30 : ℚ) * g⌋ := Int.floor_nonneg.mpr (by rw [← hcast] at *; positivity)
  simp only [make_bar]
  rw [hpyint, hcast]
  set f := ⌊(30 : ℚ) * g⌋ with hf
  refine ⟨?_, ?_, by decide, ?_⟩
  · by_cases hlt : f < 30
    · rw [if_pos hlt]
      simp only [List.length_append, List.length_cons, List.length_replicate]
      omega
    · rw [if_neg hlt]
      simp only [List.length_replicate]
      omega
  · rw [spec_bar]
    by_cases hlt : f < 30
    · rw [if_pos hlt, if_pos (by omega : f.toNat < 30)]
      have harith : ((30 : ℤ) - f - 1).toNat = 30 - f.toNat - 1 := by omega
      rw [harith]
    · rw [if_neg hlt, if_neg (by omega : ¬ f.toNat < 30)]
      rw [List.append_nil]
  · have h100 : (0 : ℚ) ≤ g * 100 := by positivity
    rw [pyInt_eq_floor h100, mul_comm]

/-- C1 witness: duration 100, position 50 renders percentage 50 and a bar
of 15 solid cells, one head cell, and 14 trailing cells. -/
theorem C1_bar_rendering_witness :
    ((0 : ℚ) ≤ 50 ∧ (0 : ℚ) < 100)
    ∧ ((make_bar (pymin ((50 : ℚ) / 100) 1)).length = 30
        ∧ make_bar (pymin ((50 : ℚ) / 100) 1)
            = spec_bar (⌊30 * clamp01 ((50 : ℚ) / 100)⌋.toNat)
        ∧ ('╺' : Char) ≠ '━'
        ∧ pyInt (pymin ((50 : ℚ) / 100) 1 * 100)
            = ⌊100 * clamp01 ((50 : ℚ) / 100)⌋)
    ∧ make_bar (pymin ((50 : ℚ) / 100) 1)
        = List.replicate 15 '━' ++ '╺' :: List.replicate 14 '━'
    ∧ pyInt (pymin ((50 : ℚ) / 100) 1 * 100) = 50 := by
  refine ⟨⟨by norm_num, by norm_num⟩,
    C1_bar_rendering 50 100 (by norm_num) (by norm_num), ?_, ?_⟩
  · have hpm : pymin ((50 : ℚ) / 100) 1 = 1/2 := by
      rw [pymin, if_pos (by norm_num)]
      norm_num
    rw [hpm, make_bar]
    norm_num [pyInt]
    decide
  · have hpm : pymin ((50 : ℚ) / 100) 1 = 1/2 := by
      rw [pymin, if_pos (by norm_num)]
      norm_num
    rw [hpm]
    norm_num [pyInt]

/-- C2 counterexample: the claim says a position of 125 seconds renders as
`"2:05"` (`M:SS` when under an hour), but the code renders
`str(timedelta(seconds=125))`, which is `"0:02:05"`: Python's `timedelta`
string always includes the hours field. -/
theorem C2_time_format_counterexample :
    format_time (pyInt (125 : ℚ)) = "0:02:05"
    ∧ format_time (pyInt (125 : ℚ)) ≠ "2:05" := by
  have h125 : pyInt (125 : ℚ) = 125 := by
    rw [pyInt_eq_floor (by norm_num)]
    norm_num
  rw [h125]
  exact ⟨by decide, by decide⟩

/-- C2 amended: for every nonnegative position below one day, both rendered
times are the string `H:MM:SS` of the position truncated to whole seconds
(hours shown even when zero and not zero-padded, minutes and seconds
zero-padded to two digits); the truncation never rounds up. In particular
125 s renders as `"0:02:05"` and 3725 s as `"1:02:05"`. -/
theorem C2_time_format_amended (q : ℚ) (h0 : 0 ≤ q) (h1 : q < 86400) :
    ((pyInt q : ℚ) ≤ q ∧ q < (pyInt q : ℚ) + 1)
    ∧ format_time (pyInt q)
        = toString (⌊q⌋.toNat / 3600) ++ ":" ++ pad2 (⌊q⌋.toNat % 3600 / 60)
            ++ ":" ++ pad2 (⌊q⌋.toNat % 60)
    ∧ format_time (125 : ℤ) = "0:02:05"
    ∧ format_time (3725 : ℤ) = "1:02:05" := by
  have hfl : pyInt q = ⌊q⌋ := pyInt_eq_floor h0
  have hnn : 0 ≤ ⌊q⌋ := Int.floor_nonneg.mpr h0
  have hlt : ⌊q⌋ < 86400 := Int.floor_lt.mpr (by exact_mod_cast h1)
  refine ⟨⟨?_, ?_⟩, ?_, by decide, by decide⟩
  · rw [hfl]
    exact Int.floor_le q
  · rw [hfl]
    exact_mod_cast Int.lt_floor_add_one q
  · rw [hfl]
    have hcast : (⌊q⌋ : ℤ) = ((⌊q⌋.toNat : ℕ) : ℤ) := (Int.toNat_of_nonneg hnn).symm
    rw [hcast]
    exact format_time_of_lt_day (by omega)

/-- C2 amended witness: instantiated at position 125 s. -/
theorem C2_time_format_amended_witness :
    ((0 : ℚ) ≤ 125 ∧ (125 : ℚ) < 86400)
    ∧ ((pyInt (125 : ℚ) : ℚ) ≤ 125 ∧ (125 : ℚ) < (pyInt (125 : ℚ) : ℚ) + 1)
    ∧ format_time (pyInt (125 : ℚ))
        = toString (⌊(125 : ℚ)⌋.toNat / 3600) ++ ":"
            ++ pad2 (⌊(125 : ℚ)⌋.toNat % 3600 / 60)
            ++ ":" ++ pad2 (⌊(125 : ℚ)⌋.toNat % 60)
    ∧ format_time (125 : ℤ) = "0:02:05"
    ∧ format_time (3725 : ℤ) = "1:02:05" :=
  ⟨⟨by norm_num, by norm_num⟩,
    C2_time_format_amended 125 (by norm_num) (by norm_num)⟩

/-- C8: the playlist loop runs only while the index lies in `[0, length)`:
any out-of-range index terminates it immediately as a normal `finished`
result; pressing `p` at index 0 (index goes to -1) and pressing `n` at
index `length - 1` (index goes to `length`) both terminate the loop
normally. -/
theorem C8_playlist_bounds (now : ℚ) (tracks : List Track) (p : MusicPlayer)
    (fuel : ℕ) :
    (∀ (idx : ℤ) (input : List Char), ¬(0 ≤ idx ∧ idx < tracks.length) →
        directory_loop now tracks (fuel + 1) p idx input = .finished p [])
    ∧ (1 ≤ tracks.length → ∀ rest : List Char,
        (directory_loop now tracks (fuel + 1 + 1) p 0 ('p' :: rest)).isFinished
          = true)
    ∧ (1 ≤ tracks.length → ∀ rest : List Char,
        (directory_loop now tracks (fuel + 1 + 1) p ((tracks.length : ℤ) - 1)
          ('n' :: rest)).isFinished = true) := by
  refine ⟨?_, ?_, ?_⟩
  · intro idx input h
    exact directory_loop_out now tracks fuel p idx input h
  · intro hL rest
    have hlt : (0 : ℤ) < (tracks.length : ℤ) := by exact_mod_cast hL
    have hn : (0 : ℤ).toNat < tracks.length := by omega
    rw [directory_loop_cons now tracks (fuel + 1) p 0 ('p' :: rest)
      (le_refl 0) hlt hn]
    dsimp only
    rw [handle_p]
    dsimp only
    rw [isFinished_prependTrace]
    rw [directory_loop_out]
    · rfl
    · omega
  · intro hL rest
    have h1 : (1 : ℤ) ≤ (tracks.length : ℤ) := by exact_mod_cast hL
    have h0 : (0 : ℤ) ≤ (tracks.length : ℤ) - 1 := by omega
    have hlt : (tracks.length : ℤ) - 1 < (tracks.length : ℤ) := by omega
    have hn : ((tracks.length : ℤ) - 1).toNat < tracks.length := by omega
    rw [directory_loop_cons now tracks (fuel + 1) p ((tracks.length : ℤ) - 1)
      ('n' :: rest) h0 hlt hn]
    dsimp only
    rw [handle_n]
    dsimp only
    rw [isFinished_prependTrace]
    rw [directory_loop_out]
    · rfl
    · omega

/-- C8 witness: a one-track playlist; index 5 terminates immediately,
`p` at index 0 terminates, `n` at the last index terminates. -/
theorem C8_playlist_bounds_witness :
    (¬((0 : ℤ) ≤ 5 ∧ (5 : ℤ) < ([⟨"a.mp3", none, none⟩] : List Track).length)
      ∧ directory_loop 0 [⟨"a.mp3", none, none⟩] 1 MusicPlayer.init.1 5 []
          = .finished MusicPlayer.init.1 [])
    ∧ 1 ≤ ([⟨"a.mp3", none, none⟩] : List Track).length
    ∧ (directory_loop 0 [⟨"a.mp3", none, none⟩] 2 MusicPlayer.init.1 0
        ['p']).isFinished = true
    ∧ (directory_loop 0 [⟨"a.mp3", none, none⟩] 2 MusicPlayer.init.1
        ((([⟨"a.mp3", none, none⟩] : List Track).length : ℤ) - 1)
        ['n']).isFinished = true :=
  ⟨⟨by decide,
    (C8_playlist_bounds 0 [⟨"a.mp3", none, none⟩] MusicPlayer.init.1 0).1 5 []
      (by decide)⟩,
   by decide,
   (C8_playlist_bounds 0 [⟨"a.mp3", none, none⟩] MusicPlayer.init.1 0).2.1
     (by decide) [],
   (C8_playlist_bounds 0 [⟨"a.mp3", none, none⟩] MusicPlayer.init.1 0).2.2
     (by decide) []⟩

/-- C3 counterexample: with a two-track playlist whose first track fails to
load (`pygame.error "boom"`) and no keyboard input, the loop does not skip
ahead: it sits blocked on keyboard input at the failing track, the error is
reported on stderr, and the second track's load is never attempted — the
claim's "advances to the next one without requiring further input" is
false. -/
theorem C3_playback_error_counterexample :
    (directory_loop 0 [⟨"a.mp3", some 100, some "boom"⟩, ⟨"b.mp3", some 100, none⟩]
        5 MusicPlayer.init.1 0 []).isBlocked = true
    ∧ Eff.echoErr "\rError playing file: boom"
        ∈ (directory_loop 0 [⟨"a.mp3", some 100, some "boom"⟩, ⟨"b.mp3", some 100, none⟩]
            5 MusicPlayer.init.1 0 []).trace
    ∧ Eff.mixerLoad "b.mp3"
        ∉ (directory_loop 0 [⟨"a.mp3", some 100, some "boom"⟩, ⟨"b.mp3", some 100, none⟩]
            5 MusicPlayer.init.1 0 []).trace :=
  ⟨by decide, by decide, by decide⟩

/-- C3 amended: when loading a track fails with a `pygame.error`, the error
is reported on the error channel and the session does not crash (the loop
keeps consuming keyboard input); but the loop does not skip the failing
track by itself — it advances only when the user presses `n`, after which
the next track's load is attempted. -/
theorem C3_playback_error_amended (now : ℚ) (p : MusicPlayer) (t0 t1 : Track)
    (e : String) (fuel : ℕ) (rest : List Char)
    (h0 : t0.loadResult = some e) (h1 : t1.loadResult = none) :
    Eff.echoErr ("\rError playing file: " ++ e)
        ∈ (directory_loop now [t0, t1] (fuel + 1 + 1) p 0 ('n' :: rest)).trace
    ∧ Eff.mixerLoad t1.path
        ∈ (directory_loop now [t0, t1] (fuel + 1 + 1) p 0 ('n' :: rest)).trace := by
  have hlt : (0 : ℤ) < (([t0, t1] : List Track).length : ℤ) := by
    simp
  have hn : (0 : ℤ).toNat < ([t0, t1] : List Track).length := by simp
  have hget0 : ([t0, t1] : List Track).get ⟨(0 : ℤ).toNat, hn⟩ = t0 := rfl
  rw [directory_loop_cons now [t0, t1] (fuel + 1) p 0 ('n' :: rest)
    (le_refl 0) hlt hn]
  dsimp only
  rw [hget0, h0]
  simp only [MusicPlayer.play_file]
  rw [handle_n]
  dsimp only
  rw [trace_prependTrace]
  constructor
  · simp
  · have h0' : (0 : ℤ) ≤ 0 + 1 := by omega
    have hlt' : (0 : ℤ) + 1 < (([t0, t1] : List Track).length : ℤ) := by simp
    have hn' : ((0 : ℤ) + 1).toNat < ([t0, t1] : List Track).length := by simp
    obtain ⟨tl, htl⟩ := directory_loop_trace_prefix now [t0, t1] fuel _
      (0 + 1) rest h0' hlt' hn'
    rw [htl]
    have hget : ([t0, t1] : List Track).get ⟨((0 : ℤ) + 1).toNat, hn'⟩ = t1 := rfl
    rw [hget, h1]
    simp [MusicPlayer.play_file]

/-- C3 amended witness: concrete failing first track, pressing `n` once. -/
theorem C3_playback_error_amended_witness :
    Eff.echoErr ("\rError playing file: " ++ "boom")
        ∈ (directory_loop 0 [⟨"a.mp3", some 100, some "boom"⟩, ⟨"b.mp3", none, none⟩]
            (0 + 1 + 1) MusicPlayer.init.1 0 ('n' :: [])).trace
    ∧ Eff.mixerLoad (Track.path ⟨"b.mp3", none, none⟩)
        ∈ (directory_loop 0 [⟨"a.mp3", some 100, some "boom"⟩, ⟨"b.mp3", none, none⟩]
            (0 + 1 + 1) MusicPlayer.init.1 0 ('n' :: [])).trace :=
  C3_playback_error_amended 0 MusicPlayer.init.1
    ⟨"a.mp3", some 100, some "boom"⟩ ⟨"b.mp3", none, none⟩ "boom" 0 [] rfl rfl

end Spotspot
